import Mathlib

/-!
Shield-log relay (`services-go/main.go`)

A shallow embedding of `processShield` (the decoder of the shield text
protocol found in chain log lines), of the receive loop of `main` that
drives it, and of `SignAndSendTx` (signer lookup, sign, submit), together
with theorems about them.

Conventions of the embedding.

* A Go `string` is a finite sequence of bytes: `GoString = List UInt8`.
  A string literal denotes its UTF-8 bytes (`lit`).
* `strings.Split` is only ever called with a one-byte separator (`":"`,
  `","`); `stringsSplit` is that function for a one-byte separator.
* Indexing a slice in Go panics when the index is out of range.  Every
  index expression of the source goes through `index`, which can fail.
* A run records, in evaluation order, the operations it performs on the
  text of the batch: each index expression and each call of `strings.Split`.
* `fmt.Printf` calls are the only observable result of `processShield`;
  each print site of the source is one constructor of `Outcome`, carrying
  the values that are printed there.
-/

namespace SolanaBridge

/-! ## Go strings -/

/-- A Go string: a sequence of bytes. -/
abbrev GoString := List UInt8

/-- The bytes denoted by a Go string literal (its UTF-8 encoding). -/
def lit (s : String) : GoString :=
  s.toList.flatMap String.utf8EncodeChar

/-- The byte `':'`. -/
def colon : UInt8 := 58

/-- The byte `','`. -/
def comma : UInt8 := 44

/-- `strings.Split(s, sep)` for a separator `sep` of one byte: the maximal
separator-free pieces of `s`, in order; there is one more piece than there are
occurrences of `sep` in `s`, so the result is never empty
(`strings.Split("", ":")` is `[""]`). -/
def stringsSplit : GoString → UInt8 → List GoString
  | [], _ => [[]]
  | c :: cs, sep =>
    if c = sep then [] :: stringsSplit cs sep
    else
      match stringsSplit cs sep with
      | [] => [[c]]
      | piece :: pieces => (c :: piece) :: pieces

/-- `strings.HasPrefix(s, prefix)`. -/
def stringsHasPrefix : GoString → GoString → Bool
  | _, [] => true
  | [], _ :: _ => false
  | c :: cs, d :: ds => c == d && stringsHasPrefix cs ds

/-- `strings.Contains(s, substr)`: `substr` occurs in `s` at some offset. -/
def stringsContains : GoString → GoString → Bool
  | [], substr => stringsHasPrefix [] substr
  | c :: cs, substr => stringsHasPrefix (c :: cs) substr || stringsContains cs substr

/-! ## Constants of `main.go` -/

/-- `const SHIELD = "Shield"`. -/
def SHIELD : GoString := lit "Shield"

/-- `const UNSHIELD = "Unshield"`. -/
def UNSHIELD : GoString := lit "Unshield"

/-- `const INCOGNITO_PROXY = "8WUP1RGTDTZGYBjkHQfjnwMbnnk25hnE6Du7vFpaq1QK"`. -/
def INCOGNITO_PROXY : GoString := lit "8WUP1RGTDTZGYBjkHQfjnwMbnnk25hnE6Du7vFpaq1QK"

/-- `const PROGRAM_ID = "BKGhwbiTHdUxcuWzZtDWyioRBieDEXTtgEk8u1zskZnk"`. -/
def PROGRAM_ID : GoString := lit "BKGhwbiTHdUxcuWzZtDWyioRBieDEXTtgEk8u1zskZnk"

/-! ## Runs: results, panics and the operations performed -/

/-- A Go run-time panic raised by an index expression `xs[i]` with
`i ≥ len(xs)`. -/
inductive GoPanic
  | indexOutOfRange (i len : Nat)
  deriving DecidableEq, Repr

/-- How a piece of Go code ends: normally with a value, or with a panic. -/
inductive Exec (α : Type)
  | ok (a : α)
  | panic (p : GoPanic)
  deriving DecidableEq, Repr

/-- An operation of `processShield` on the text of the batch: the index
expressions `shieldLogs[i]`, `shieldInfoSplit[i]`, `shieldInfo[i]`, and the
calls `strings.Split(_, sep)`. -/
inductive Op
  | line (i : Nat)
  | split (sep : UInt8)
  | segment (i : Nat)
  | field (i : Nat)
  deriving DecidableEq, Repr

/-- A run: the operations performed, in order, and how the run ended. -/
structure Run (α : Type) where
  ops : List Op
  result : Exec α
  deriving DecidableEq, Repr

/-- A run that performs no operation and ends with `a`. -/
def Run.pure {α : Type} (a : α) : Run α := ⟨[], .ok a⟩

/-- Sequencing: the second run starts only when the first ended normally. -/
def Run.bind {α β : Type} (m : Run α) (f : α → Run β) : Run β :=
  match m.result with
  | .panic p => ⟨m.ops, .panic p⟩
  | .ok a => ⟨m.ops ++ (f a).ops, (f a).result⟩

instance : Monad Run where
  pure := Run.pure
  bind := Run.bind

/-- The Go index expression `xs[i]`: the element, or a panic when `i` is
not below `len(xs)`. -/
def index {α : Type} (xs : List α) (i : Nat) : Exec α :=
  match xs[i]? with
  | some x => .ok x
  | none => .panic (.indexOutOfRange i xs.length)

/-- `shieldLogs[i]`. -/
def readLine (shieldLogs : List GoString) (i : Nat) : Run GoString :=
  ⟨[.line i], index shieldLogs i⟩

/-- `shieldInfoSplit[i]`. -/
def readSegment (shieldInfoSplit : List GoString) (i : Nat) : Run GoString :=
  ⟨[.segment i], index shieldInfoSplit i⟩

/-- `shieldInfo[i]`. -/
def readField (shieldInfo : List GoString) (i : Nat) : Run GoString :=
  ⟨[.field i], index shieldInfo i⟩

/-- The call `strings.Split(s, sep)`, which always returns. -/
def split (s : GoString) (sep : UInt8) : Run (List GoString) :=
  ⟨[.split sep], .ok (stringsSplit s sep)⟩

/-! ## `ws.LogResult` and the outcomes of `processShield` -/

/-- `solana.Signature`, an array of 64 bytes, by its bytes. -/
structure Signature where
  bytes : List UInt8
  deriving DecidableEq, Repr

/-- `solana.Signature{}`: the zero value, 64 zero bytes. -/
def Signature.zero : Signature := ⟨List.replicate 64 0⟩

/-- The chain-reported error `logs.Value.Err` when it is not `nil`. -/
structure ChainErr where
  repr : GoString
  deriving DecidableEq, Repr

/-- The part of `ws.LogResult` that `processShield` uses: `Value.Signature`,
`Value.Err` (`none` is Go `nil`) and `Value.Logs`. -/
structure LogResult where
  Signature : Signature
  Err : Option ChainErr
  Logs : List GoString
  deriving DecidableEq, Repr

/-- The four values decoded from the payload at the point where
`processShield` accepts: the locals `incognitoProxy`, `incAddress`,
`tokenID`, `amount`. -/
structure ShieldEvent where
  incognitoProxy : GoString
  incAddress : GoString
  tokenID : GoString
  amount : GoString
  deriving DecidableEq, Repr

/-- The print site at which `processShield` returns, with the values it
prints there. All but `shield` are rejections. -/
inductive Outcome
  /-- Line 122: `"the transaction failed %v"`. -/
  | txFailed (err : ChainErr)
  /-- Line 127: `"invalid shield logs, length must greate than 7 %v"`. -/
  | invalidLength
  /-- Line 136: `"invalid instruction %s"`. -/
  | invalidInstruction (line : GoString)
  /-- Line 142: `"invalid shield logs %+v"`. -/
  | invalidShieldLogs (logs : LogResult)
  /-- Line 148: `"invalid shield info %v"`. -/
  | invalidShieldInfo (shieldInfo : List GoString)
  /-- Line 154: `"invalid incognito proxy %v"`. -/
  | invalidProxy (incognitoProxy : GoString)
  /-- Line 161: `"shield with inc address %s token id %s and amount %s"`. -/
  | shield (ev : ShieldEvent)
  deriving DecidableEq, Repr

/-! ## `processShield` -/

/-- Lines 140-161 of `processShield`: the decoding of `shieldLogs[6]`, already
read into `line`. `logs` is only printed (line 142). -/
def decodeShieldInfo (trustedProxy : GoString) (logs : LogResult) (line : GoString) :
    Run Outcome :=
  do
    let shieldInfoSplit ← split line colon
    if shieldInfoSplit.length < 3 then pure (.invalidShieldLogs logs)
    else do
      let payload ← readSegment shieldInfoSplit 2
      let shieldInfo ← split payload comma
      if shieldInfo.length < 4 then pure (.invalidShieldInfo shieldInfo)
      else do
        let incognitoProxy ← readField shieldInfo 0
        if incognitoProxy ≠ trustedProxy then pure (.invalidProxy incognitoProxy)
        else do
          let incAddress ← readField shieldInfo 1
          let tokenID ← readField shieldInfo 2
          let amount ← readField shieldInfo 3
          pure (.shield ⟨incognitoProxy, incAddress, tokenID, amount⟩)

/-- `processShield(logs)` of `main.go`, lines 120-162, with the constant
`INCOGNITO_PROXY` the source compares against taken as the parameter
`trustedProxy`; the function of the program is
`processShield INCOGNITO_PROXY`. The pointer `logs` is not `nil` (at the only
call site it is the value `sub.Recv()` returned without error). -/
def processShield (trustedProxy : GoString) (logs : LogResult) : Run Outcome :=
  match logs.Err with
  | some err => pure (.txFailed err)
  | none =>
    if logs.Logs.length < 7 then pure .invalidLength
    else
      let shieldLogs := logs.Logs
      do
        let tag ← readLine shieldLogs 1
        if !stringsContains tag SHIELD then pure (.invalidInstruction tag)
        else do
          let line ← readLine shieldLogs 6
          decodeShieldInfo trustedProxy logs line

/-- The receive loop of `main`, lines 108-116, on the batches received so
far: each batch `sub.Recv()` returns is handed to `processShield`, in order,
and nothing is carried from one iteration to the next. -/
def receiveLoop (trustedProxy : GoString) : List LogResult → List (Run Outcome)
  | [] => []
  | got :: rest => processShield trustedProxy got :: receiveLoop trustedProxy rest

/-- The event a run produced: the accepted event, if the run ended at the
accepting print site. -/
def producedEvent (r : Run Outcome) : Option ShieldEvent :=
  match r.result with
  | .ok (.shield ev) => some ev
  | _ => none

/-- Specification predicate (data model of the spec, no counterpart in the
source): the text parses as a non-negative integer, i.e. it is a non-empty
string of decimal digits. -/
def parsesAsNonNegInt (s : GoString) : Bool :=
  !s.isEmpty && s.all (fun b => decide (48 ≤ b.toNat ∧ b.toNat ≤ 57))

/-- An operation of `processShield` stays within bounds: an index expression
has its index below the length of the slice it reads (`shieldLogs`, the
`:`-split of `shieldLogs[6]`, the `,`-split of segment 2 of that split); a
call of `strings.Split` indexes nothing. -/
def Op.inBounds (logs : LogResult) : Op → Bool
  | .line i => decide (i < logs.Logs.length)
  | .split _ => true
  | .segment i => decide (i < (stringsSplit (logs.Logs.getD 6 []) colon).length)
  | .field i =>
    decide (i <
      (stringsSplit ((stringsSplit (logs.Logs.getD 6 []) colon).getD 2 []) comma).length)

/-! ## `SignAndSendTx` -/

/-- `solana.PublicKey`, by its bytes. -/
structure PublicKey where
  bytes : List UInt8
  deriving DecidableEq, Repr

/-- `solana.PrivateKey`, by its bytes. -/
structure PrivateKey where
  bytes : List UInt8
  deriving DecidableEq, Repr

/-- A Go `error` value that is not `nil`. -/
structure GoError where
  msg : GoString
  deriving DecidableEq, Repr

/-- The operations of the `solana-go` library that `SignAndSendTx` calls; they
are not part of this repository and are taken as parameters, as functions
that return.

* `publicKey k` is `k.PublicKey()`;
* `sign tx getter` is `tx.Sign(getter)`: the error, or the transaction with
  the signatures it appended;
* `sendTransaction tx` is `rpcClient.SendTransaction(ctx, tx)`. -/
structure SolanaLib (Transaction : Type) where
  publicKey : PrivateKey → PublicKey
  sign : Transaction → (PublicKey → Option PrivateKey) → Except GoError Transaction
  sendTransaction : Transaction → Except GoError Signature

/-- The closure passed to `tx.Sign` at lines 165-172: the first candidate of
`signers`, in list order, whose public key equals `key`; `none` is `nil`. -/
def signerLookup (publicKey : PrivateKey → PublicKey) :
    List PrivateKey → PublicKey → Option PrivateKey
  | [], _ => none
  | candidate :: rest, key =>
    if publicKey candidate = key then some candidate
    else signerLookup publicKey rest key

/-- What a call of `SignAndSendTx` returns, and the transactions it handed to
`rpcClient.SendTransaction`. -/
structure SubmitRun (Transaction : Type) where
  signature : Signature
  err : Option GoError
  sent : List Transaction

/-- `SignAndSendTx(tx, signers, rpcClient)` of `main.go`, lines 164-184. -/
def SignAndSendTx {Transaction : Type} (lib : SolanaLib Transaction) (tx : Transaction)
    (signers : List PrivateKey) : SubmitRun Transaction :=
  match lib.sign tx (signerLookup lib.publicKey signers) with
  | .error err => ⟨Signature.zero, some err, []⟩
  | .ok signed =>
    match lib.sendTransaction signed with
    | .error err => ⟨Signature.zero, some err, [signed]⟩
    | .ok signature => ⟨signature, none, [signed]⟩

/-! ## Example inputs -/

/-- A non-failed batch of seven log lines in the shape the program emits:
the instruction tag at index 1 and `line6` at index 6. -/
def exampleBatch (line6 : GoString) : LogResult :=
  { Signature := ⟨List.replicate 64 7⟩
    Err := none
    Logs := [lit "Program BKGhwbiTHdUxcuWzZtDWyioRBieDEXTtgEk8u1zskZnk invoke [1]",
      lit "Program log: Instruction: Shield",
      lit "Program TokenkegQfeZyiNwAJbNbGKPFXCWuBvf9Ss623VQ5DA invoke [2]",
      lit "Program log: Instruction: Transfer",
      lit "Program TokenkegQfeZyiNwAJbNbGKPFXCWuBvf9Ss623VQ5DA consumed 3121 of 186939 compute units",
      lit "Program TokenkegQfeZyiNwAJbNbGKPFXCWuBvf9Ss623VQ5DA success",
      line6] }

/-- The batch `exampleBatch line6` as the chain reports it when the transaction
failed. -/
def failedBatch (line6 : GoString) : LogResult :=
  { exampleBatch line6 with Err := some ⟨lit "InstructionError"⟩ }

/-- A transaction of the example library: the public keys that must sign and
the private keys that have signed. -/
structure ExampleTx where
  required : List PublicKey
  signedBy : List PrivateKey
  deriving DecidableEq, Repr

/-- The signing loop of the example library: every required key is looked up
in turn, and the first one without a handle fails the signing. -/
def exampleSign (getter : PublicKey → Option PrivateKey) :
    List PublicKey → List PrivateKey → Except GoError (List PrivateKey)
  | [], acc => .ok acc
  | key :: keys, acc =>
    match getter key with
    | none => .error ⟨lit "signer key not found"⟩
    | some k => exampleSign getter keys (acc ++ [k])

/-- An example instance of the library operations: a public key is the
private key's bytes reversed, signing follows `exampleSign`, and sending
returns a fixed signature. -/
def exampleLib : SolanaLib ExampleTx where
  publicKey := fun k => ⟨k.bytes.reverse⟩
  sign := fun tx getter =>
    match exampleSign getter tx.required tx.signedBy with
    | .error e => .error e
    | .ok ks => .ok { tx with signedBy := ks }
  sendTransaction := fun _ => .ok ⟨List.replicate 64 1⟩

/-! ## Lemmas on the string functions -/

theorem stringsSplit_of_not_mem (s : GoString) (sep : UInt8) (h : sep ∉ s) :
    stringsSplit s sep = [s] := by
  induction s with
  | nil => rfl
  | cons c cs ih =>
    have hc : c ≠ sep := fun e => h (by simp [e])
    have hcs : sep ∉ cs := fun m => h (List.mem_cons_of_mem _ m)
    simp [stringsSplit, hc, ih hcs]

theorem stringsSplit_append_sep (a b : GoString) (sep : UInt8) (h : sep ∉ a) :
    stringsSplit (a ++ sep :: b) sep = a :: stringsSplit b sep := by
  induction a with
  | nil => simp [stringsSplit]
  | cons c cs ih =>
    have hc : c ≠ sep := fun e => h (by simp [e])
    have hcs : sep ∉ cs := fun m => h (List.mem_cons_of_mem _ m)
    simp [stringsSplit, hc, ih hcs]

/-! ## Lemmas on runs -/

theorem index_eq_ok {α : Type} (xs : List α) (i : Nat) (x : α) (h : xs[i]? = some x) :
    index xs i = .ok x := by
  simp [index, h]

theorem Run.pure_eq {α : Type} (a : α) : (Pure.pure a : Run α) = ⟨[], .ok a⟩ := rfl

theorem Run.bind_eq {α β : Type} (m : Run α) (f : α → Run β) : (m >>= f) = Run.bind m f := rfl

theorem Run.bind_ok {α β : Type} (acc : List Op) (a : α) (f : α → Run β) :
    Run.bind ⟨acc, .ok a⟩ f = ⟨acc ++ (f a).ops, (f a).result⟩ := rfl

/-! ## The shape of a run of `processShield` -/

theorem decodeShieldInfo_short_line (trustedProxy : GoString) (logs : LogResult)
    (line : GoString) (h : (stringsSplit line colon).length < 3) :
    decodeShieldInfo trustedProxy logs line =
      ⟨[.split colon], .ok (.invalidShieldLogs logs)⟩ := by
  simp only [decodeShieldInfo, split, Run.bind_eq, Run.bind_ok, h, if_true, Run.pure_eq]
  simp

theorem decodeShieldInfo_short_payload (trustedProxy : GoString) (logs : LogResult)
    (line payload : GoString) (h2 : (stringsSplit line colon)[2]? = some payload)
    (h : (stringsSplit payload comma).length < 4) :
    decodeShieldInfo trustedProxy logs line =
      ⟨[.split colon, .segment 2, .split comma],
        .ok (.invalidShieldInfo (stringsSplit payload comma))⟩ := by
  have h3 : ¬ (stringsSplit line colon).length < 3 := by
    have := (List.getElem?_eq_some_iff.mp h2).1
    omega
  simp only [decodeShieldInfo, split, h3, if_false, readSegment, index_eq_ok _ _ _ h2,
    Run.bind_eq, Run.bind_ok, h, if_true, Run.pure_eq]
  simp

theorem decodeShieldInfo_fields (trustedProxy : GoString) (logs : LogResult)
    (line payload f0 f1 f2 f3 : GoString) (rest : List GoString)
    (h2 : (stringsSplit line colon)[2]? = some payload)
    (hf : stringsSplit payload comma = f0 :: f1 :: f2 :: f3 :: rest) :
    decodeShieldInfo trustedProxy logs line =
      if f0 ≠ trustedProxy then
        ⟨[.split colon, .segment 2, .split comma, .field 0], .ok (.invalidProxy f0)⟩
      else ⟨[.split colon, .segment 2, .split comma, .field 0, .field 1, .field 2, .field 3],
        .ok (.shield ⟨f0, f1, f2, f3⟩)⟩ := by
  have h3 : ¬ (stringsSplit line colon).length < 3 := by
    have := (List.getElem?_eq_some_iff.mp h2).1
    omega
  have h4 : ¬ rest.length + 1 + 1 + 1 + 1 < 4 := by omega
  simp only [decodeShieldInfo, split, h3, if_false, readSegment, index_eq_ok _ _ _ h2,
    Run.bind_eq, Run.bind_ok, hf, readField]
  by_cases hp : f0 = trustedProxy <;> simp [index, hp, h4, Run.bind, Run.pure_eq]

theorem exists_getElem?_two {α : Type} (xs : List α) (h : 3 ≤ xs.length) :
    ∃ x, xs[2]? = some x :=
  ⟨xs[2], List.getElem?_eq_getElem (by omega)⟩

theorem exists_four_fields {α : Type} (xs : List α) (h : 4 ≤ xs.length) :
    ∃ f0 f1 f2 f3 rest, xs = f0 :: f1 :: f2 :: f3 :: rest := by
  match xs, h with
  | f0 :: f1 :: f2 :: f3 :: rest, _ => exact ⟨f0, f1, f2, f3, rest, rfl⟩

theorem processShield_failed (trustedProxy : GoString) (logs : LogResult) (err : ChainErr)
    (h : logs.Err = some err) :
    processShield trustedProxy logs = ⟨[], .ok (.txFailed err)⟩ := by
  simp [processShield, h, Run.pure_eq]

theorem processShield_short (trustedProxy : GoString) (logs : LogResult)
    (herr : logs.Err = none) (h : logs.Logs.length < 7) :
    processShield trustedProxy logs = ⟨[], .ok .invalidLength⟩ := by
  simp [processShield, herr, h, Run.pure_eq]

theorem processShield_no_tag (trustedProxy : GoString) (logs : LogResult) (tag : GoString)
    (herr : logs.Err = none) (hlen : 7 ≤ logs.Logs.length)
    (h1 : logs.Logs[1]? = some tag) (htag : stringsContains tag SHIELD = false) :
    processShield trustedProxy logs = ⟨[.line 1], .ok (.invalidInstruction tag)⟩ := by
  have hl : ¬ logs.Logs.length < 7 := by omega
  simp only [processShield, herr, hl, if_false, readLine, index_eq_ok _ _ _ h1,
    Run.bind_eq, Run.bind_ok, htag, Run.pure_eq]
  simp

theorem processShield_valid (trustedProxy : GoString) (logs : LogResult) (tag line : GoString)
    (herr : logs.Err = none) (hlen : 7 ≤ logs.Logs.length)
    (h1 : logs.Logs[1]? = some tag) (htag : stringsContains tag SHIELD = true)
    (h6 : logs.Logs[6]? = some line) :
    processShield trustedProxy logs =
      ⟨.line 1 :: .line 6 :: (decodeShieldInfo trustedProxy logs line).ops,
        (decodeShieldInfo trustedProxy logs line).result⟩ := by
  have hl : ¬ logs.Logs.length < 7 := by omega
  simp only [processShield, herr, hl, if_false, readLine, index_eq_ok _ _ _ h1,
    index_eq_ok _ _ _ h6, Run.bind_eq, Run.bind_ok, htag]
  simp

theorem exists_line {α : Type} (xs : List α) (i : Nat) (h : i < xs.length) :
    ∃ x, xs[i]? = some x :=
  ⟨xs[i], List.getElem?_eq_getElem h⟩

/-- Inversion of acceptance: an accepted batch is non-failed, has at least 7
lines, carries the tag at line 1, and its event is the first four
comma-fields of segment 2 of line 6, the first being the trusted proxy. -/
theorem processShield_accept_inv (trustedProxy : GoString) (logs : LogResult) (ev : ShieldEvent)
    (h : (processShield trustedProxy logs).result = .ok (.shield ev)) :
    logs.Err = none ∧ 7 ≤ logs.Logs.length ∧
      ∃ tag line payload rest,
        logs.Logs[1]? = some tag ∧ stringsContains tag SHIELD = true ∧
        logs.Logs[6]? = some line ∧ (stringsSplit line colon)[2]? = some payload ∧
        stringsSplit payload comma =
          ev.incognitoProxy :: ev.incAddress :: ev.tokenID :: ev.amount :: rest ∧
        ev.incognitoProxy = trustedProxy := by
  cases herr : logs.Err with
  | some err => rw [processShield_failed _ _ _ herr] at h; simp at h
  | none =>
    by_cases hlen : logs.Logs.length < 7
    · rw [processShield_short _ _ herr hlen] at h; simp at h
    · obtain ⟨tag, h1⟩ := exists_line logs.Logs 1 (by omega)
      obtain ⟨line, h6⟩ := exists_line logs.Logs 6 (by omega)
      cases htag : stringsContains tag SHIELD with
      | false => rw [processShield_no_tag _ _ _ herr (by omega) h1 htag] at h; simp at h
      | true =>
        rw [processShield_valid _ _ _ _ herr (by omega) h1 htag h6] at h
        simp only at h
        refine ⟨rfl, by omega, tag, line, ?_⟩
        by_cases h3 : (stringsSplit line colon).length < 3
        · rw [decodeShieldInfo_short_line _ _ _ h3] at h; simp at h
        · obtain ⟨payload, h2⟩ := exists_getElem?_two (stringsSplit line colon) (by omega)
          by_cases h4 : (stringsSplit payload comma).length < 4
          · rw [decodeShieldInfo_short_payload _ _ _ _ h2 h4] at h; simp at h
          · obtain ⟨f0, f1, f2, f3, rest, hf⟩ :=
              exists_four_fields (stringsSplit payload comma) (by omega)
            rw [decodeShieldInfo_fields _ _ _ _ _ _ _ _ _ h2 hf] at h
            by_cases hp : f0 = trustedProxy
            · simp [hp] at h
              subst h
              exact ⟨payload, rest, h1, htag, h6, h2, by simpa [hp] using hf, rfl⟩
            · simp [hp] at h

/-- A valid batch whose line 6 is two colon-free leading segments followed
by four separator-free fields joined by commas is accepted, after exactly the
nine operations of the accepting path, with the four fields as its event. -/
theorem processShield_wire (P D T A seg0 seg1 tag : GoString) (logs : LogResult)
    (hP : colon ∉ P ∧ comma ∉ P) (hD : colon ∉ D ∧ comma ∉ D)
    (hT : colon ∉ T ∧ comma ∉ T) (hA : colon ∉ A ∧ comma ∉ A)
    (h0 : colon ∉ seg0) (hs1 : colon ∉ seg1)
    (herr : logs.Err = none) (hlen : 7 ≤ logs.Logs.length)
    (h1 : logs.Logs[1]? = some tag) (htag : stringsContains tag SHIELD = true)
    (h6 : logs.Logs[6]? =
      some (seg0 ++ colon :: (seg1 ++ colon :: (P ++ comma :: (D ++ comma :: (T ++ comma :: A)))))) :
    processShield P logs =
      ⟨[.line 1, .line 6, .split colon, .segment 2, .split comma, .field 0, .field 1, .field 2,
        .field 3],
        .ok (.shield ⟨P, D, T, A⟩)⟩ := by
  have hc : colon ≠ comma := by decide
  have hpay : colon ∉ P ++ comma :: (D ++ comma :: (T ++ comma :: A)) := by
    simp [hP.1, hD.1, hT.1, hA.1, hc]
  have hsplit : stringsSplit
      (seg0 ++ colon :: (seg1 ++ colon :: (P ++ comma :: (D ++ comma :: (T ++ comma :: A)))))
      colon = [seg0, seg1, P ++ comma :: (D ++ comma :: (T ++ comma :: A))] := by
    rw [stringsSplit_append_sep _ _ _ h0, stringsSplit_append_sep _ _ _ hs1,
      stringsSplit_of_not_mem _ _ hpay]
  have hfields : stringsSplit (P ++ comma :: (D ++ comma :: (T ++ comma :: A))) comma =
      [P, D, T, A] := by
    rw [stringsSplit_append_sep _ _ _ hP.2, stringsSplit_append_sep _ _ _ hD.2,
      stringsSplit_append_sep _ _ _ hT.2, stringsSplit_of_not_mem _ _ hA.2]
  rw [processShield_valid _ _ _ _ herr hlen h1 htag h6,
    decodeShieldInfo_fields P logs _ _ P D T A [] (by rw [hsplit]; rfl) hfields]
  simp

/-! ## The claims -/

/-- C3: a batch whose chain-reported error is set is rejected with the
transaction-failed reason, whatever its lines are: no line is read, nothing is
split or decoded (the run performs no operation on the text), and no ShieldEvent is
produced. -/
theorem processShield_failed_batch_rejected (trustedProxy : GoString) (logs : LogResult)
    (err : ChainErr) (h : logs.Err = some err) :
    processShield trustedProxy logs = ⟨[], .ok (.txFailed err)⟩ ∧
      producedEvent (processShield trustedProxy logs) = none := by
  rw [processShield_failed _ _ _ h]
  exact ⟨rfl, rfl⟩

/-- C3, at two failed batches: one with no line at all and one whose line 6 is
a well-formed payload for the trusted proxy. -/
theorem processShield_failed_batch_rejected_witness :
    (processShield (lit "P") ⟨⟨[]⟩, some ⟨lit "InstructionError"⟩, []⟩ =
        ⟨[], .ok (.txFailed ⟨lit "InstructionError"⟩)⟩ ∧
      producedEvent (processShield (lit "P") ⟨⟨[]⟩, some ⟨lit "InstructionError"⟩, []⟩) = none) ∧
    (processShield (lit "P") (failedBatch (lit "Program log: Shield:P,DEST123,TOKEN1,100000")) =
        ⟨[], .ok (.txFailed ⟨lit "InstructionError"⟩)⟩ ∧
      producedEvent
        (processShield (lit "P") (failedBatch (lit "Program log: Shield:P,DEST123,TOKEN1,100000")))
        = none) :=
  ⟨processShield_failed_batch_rejected _ _ _ rfl, processShield_failed_batch_rejected _ _ _ rfl⟩

/-- C4: a non-failed batch with fewer than 7 lines (the empty batch included)
is rejected at the length check, before any line is read and before any
splitting (the run performs no operation on the text), and produces no ShieldEvent; a
non-failed batch of 7 lines or more is not rejected by the length check. -/
theorem processShield_short_batch_rejected (trustedProxy : GoString) (logs : LogResult)
    (herr : logs.Err = none) :
    (logs.Logs.length < 7 →
      processShield trustedProxy logs = ⟨[], .ok .invalidLength⟩ ∧
        producedEvent (processShield trustedProxy logs) = none) ∧
    (7 ≤ logs.Logs.length →
      (processShield trustedProxy logs).result ≠ .ok .invalidLength) := by
  constructor
  · intro h
    rw [processShield_short _ _ herr h]
    exact ⟨rfl, rfl⟩
  · intro hlen
    obtain ⟨tag, h1⟩ := exists_line logs.Logs 1 (by omega)
    obtain ⟨line, h6⟩ := exists_line logs.Logs 6 (by omega)
    cases htag : stringsContains tag SHIELD with
    | false => rw [processShield_no_tag _ _ _ herr hlen h1 htag]; simp
    | true =>
      rw [processShield_valid _ _ _ _ herr hlen h1 htag h6]
      simp only
      by_cases h3 : (stringsSplit line colon).length < 3
      · rw [decodeShieldInfo_short_line _ _ _ h3]; simp
      · obtain ⟨payload, h2⟩ := exists_getElem?_two (stringsSplit line colon) (by omega)
        by_cases h4 : (stringsSplit payload comma).length < 4
        · rw [decodeShieldInfo_short_payload _ _ _ _ h2 h4]; simp
        · obtain ⟨f0, f1, f2, f3, rest, hf⟩ :=
            exists_four_fields (stringsSplit payload comma) (by omega)
          rw [decodeShieldInfo_fields _ _ _ _ _ _ _ _ _ h2 hf]
          by_cases hp : f0 = trustedProxy <;> simp [hp]

/-- C4, at the empty batch, at a batch of 6 lines whose last line is a
well-formed payload, and at a batch of exactly 7 lines. -/
theorem processShield_short_batch_rejected_witness :
    (processShield (lit "P") ⟨⟨[]⟩, none, []⟩ = ⟨[], .ok .invalidLength⟩ ∧
      producedEvent (processShield (lit "P") ⟨⟨[]⟩, none, []⟩) = none) ∧
    (processShield (lit "P")
        ⟨⟨[]⟩, none, [[], lit "Shield", [], [], [], lit "a:b:P,D,T,1"]⟩ =
        ⟨[], .ok .invalidLength⟩ ∧
      producedEvent (processShield (lit "P")
        ⟨⟨[]⟩, none, [[], lit "Shield", [], [], [], lit "a:b:P,D,T,1"]⟩) = none) ∧
    (processShield (lit "P") ⟨⟨[]⟩, none, [[], [], [], [], [], [], []]⟩).result ≠
      .ok .invalidLength :=
  ⟨(processShield_short_batch_rejected _ _ rfl).1 (by decide),
    (processShield_short_batch_rejected _ _ rfl).1 (by decide),
    (processShield_short_batch_rejected _ _ rfl).2 (by decide)⟩

/-- C1, the scenario as the claim states it, refuted: with the trusted proxy
`"P"`, the line `"Program log: Shield:INC:P,DEST123,TOKEN1,100000"` is not
accepted. Its segment of index 2 is `"INC"`, which has one `,`-field, so the
batch is rejected as invalid shield info and no event is produced. -/
theorem processShield_INC_scenario_rejected :
    processShield (lit "P")
        (exampleBatch (lit "Program log: Shield:INC:P,DEST123,TOKEN1,100000")) =
      ⟨[.line 1, .line 6, .split colon, .segment 2, .split comma], .ok (.invalidShieldInfo [lit "INC"])⟩ ∧
    (processShield (lit "P")
        (exampleBatch (lit "Program log: Shield:INC:P,DEST123,TOKEN1,100000"))).result ≠
      .ok (.shield ⟨lit "P", lit "DEST123", lit "TOKEN1", lit "100000"⟩) ∧
    producedEvent (processShield (lit "P")
        (exampleBatch (lit "Program log: Shield:INC:P,DEST123,TOKEN1,100000"))) = none := by
  decide

/-- C1, amended: for every trusted proxy `P`, destination `D`, asset `T` and
amount text `A` that contain neither `:` nor `,`, a non-failed batch of at
least 7 lines whose line 1 contains the shield tag and whose line 6 is
`"Program log: Shield:" ++ P ++ "," ++ D ++ "," ++ T ++ "," ++ A` (the payload
is the segment of index 2) is accepted by `processShield` with trusted proxy
`P` and decodes to proxy `P`, destination `D`, asset `T`, amount `A`. -/
theorem processShield_decodes_program_log_line (P D T A : GoString) (logs : LogResult)
    (hP : colon ∉ P ∧ comma ∉ P) (hD : colon ∉ D ∧ comma ∉ D)
    (hT : colon ∉ T ∧ comma ∉ T) (hA : colon ∉ A ∧ comma ∉ A)
    (herr : logs.Err = none) (hlen : 7 ≤ logs.Logs.length)
    (htag : ∃ tag, logs.Logs[1]? = some tag ∧ stringsContains tag SHIELD = true)
    (h6 : logs.Logs[6]? =
      some (lit "Program log: Shield:" ++ P ++ [comma] ++ D ++ [comma] ++ T ++ [comma] ++ A)) :
    (processShield P logs).result = .ok (.shield ⟨P, D, T, A⟩) ∧
      producedEvent (processShield P logs) = some ⟨P, D, T, A⟩ := by
  obtain ⟨tag, h1, hc⟩ := htag
  have hpre : lit "Program log: Shield:" = lit "Program log" ++ colon :: (lit " Shield" ++ [colon]) := by
    decide
  have h6' : logs.Logs[6]? = some (lit "Program log" ++ colon ::
      (lit " Shield" ++ colon :: (P ++ comma :: (D ++ comma :: (T ++ comma :: A))))) := by
    rw [h6, hpre]
    simp
  have hrun := processShield_wire P D T A (lit "Program log") (lit " Shield") tag logs
    hP hD hT hA (by decide) (by decide) herr hlen h1 hc h6'
  rw [hrun]
  exact ⟨rfl, rfl⟩

/-- C1, amended, at the scenario without the `INC:` segment: line 6 =
`"Program log: Shield:P,DEST123,TOKEN1,100000"` with trusted proxy `"P"`
decodes to proxy `"P"`, destination `"DEST123"`, asset `"TOKEN1"`, amount
`"100000"`. -/
theorem processShield_decodes_program_log_line_witness :
    (processShield (lit "P")
        (exampleBatch (lit "Program log: Shield:P,DEST123,TOKEN1,100000"))).result =
        .ok (.shield ⟨lit "P", lit "DEST123", lit "TOKEN1", lit "100000"⟩) ∧
      producedEvent (processShield (lit "P")
        (exampleBatch (lit "Program log: Shield:P,DEST123,TOKEN1,100000"))) =
        some ⟨lit "P", lit "DEST123", lit "TOKEN1", lit "100000"⟩ :=
  processShield_decodes_program_log_line (lit "P") (lit "DEST123") (lit "TOKEN1") (lit "100000")
    (exampleBatch (lit "Program log: Shield:P,DEST123,TOKEN1,100000"))
    (by decide) (by decide) (by decide) (by decide) rfl (by decide)
    ⟨lit "Program log: Instruction: Shield", rfl, by decide⟩ (by decide)

/-- C2, as stated, refuted: the event (proxy `"P"`, destination `"a,b"`, asset
`"T"`, amount `"1"`), whose proxy is the trusted one, is encoded into line 6 of
an otherwise valid batch; the batch is accepted, but the event decoded has
destination `"a"`, asset `"b"` and amount `"T"`. -/
theorem processShield_roundtrip_breaks_on_comma :
    producedEvent (processShield (lit "P")
        (exampleBatch (lit "Program log" ++ [colon] ++ lit " Shield" ++ [colon] ++
          lit "P" ++ [comma] ++ lit "a,b" ++ [comma] ++ lit "T" ++ [comma] ++ lit "1"))) =
      some ⟨lit "P", lit "a", lit "b", lit "T"⟩ ∧
    producedEvent (processShield (lit "P")
        (exampleBatch (lit "Program log" ++ [colon] ++ lit " Shield" ++ [colon] ++
          lit "P" ++ [comma] ++ lit "a,b" ++ [comma] ++ lit "T" ++ [comma] ++ lit "1"))) ≠
      some ⟨lit "P", lit "a,b", lit "T", lit "1"⟩ := by
  decide

/-- C2, amended: for every ShieldEvent whose proxy equals the trusted proxy and
whose proxy, destination, asset and amount contain neither `:` nor `,`,
encoding it into the line-6 wire format (two `:`-terminated leading segments
`seg0`, `seg1`, then the four fields joined by `,`) and decoding that line with
`processShield` inside an otherwise valid batch yields exactly that event. -/
theorem processShield_roundtrip (trustedProxy seg0 seg1 : GoString) (ev : ShieldEvent)
    (logs : LogResult) (hproxy : ev.incognitoProxy = trustedProxy)
    (hP : colon ∉ ev.incognitoProxy ∧ comma ∉ ev.incognitoProxy)
    (hD : colon ∉ ev.incAddress ∧ comma ∉ ev.incAddress)
    (hT : colon ∉ ev.tokenID ∧ comma ∉ ev.tokenID)
    (hA : colon ∉ ev.amount ∧ comma ∉ ev.amount)
    (h0 : colon ∉ seg0) (hs1 : colon ∉ seg1)
    (herr : logs.Err = none) (hlen : 7 ≤ logs.Logs.length)
    (htag : ∃ tag, logs.Logs[1]? = some tag ∧ stringsContains tag SHIELD = true)
    (h6 : logs.Logs[6]? =
      some (seg0 ++ [colon] ++ seg1 ++ [colon] ++ ev.incognitoProxy ++ [comma] ++
        ev.incAddress ++ [comma] ++ ev.tokenID ++ [comma] ++ ev.amount)) :
    producedEvent (processShield trustedProxy logs) = some ev := by
  obtain ⟨tag, h1, hc⟩ := htag
  subst hproxy
  have h6' : logs.Logs[6]? = some (seg0 ++ colon :: (seg1 ++ colon :: (ev.incognitoProxy ++
      comma :: (ev.incAddress ++ comma :: (ev.tokenID ++ comma :: ev.amount))))) := by
    rw [h6]
    simp
  rw [processShield_wire _ _ _ _ seg0 seg1 tag logs hP hD hT hA h0 hs1 herr hlen h1 hc h6']
  rfl

/-- C2, amended, at the event (`INCOGNITO_PROXY`, `"DEST123"`, `"TOKEN1"`,
`"100000"`) with the trusted proxy of the program and the leading segments
`"Program log"` and `" Shield"`. -/
theorem processShield_roundtrip_witness :
    producedEvent (processShield INCOGNITO_PROXY
        (exampleBatch (lit "Program log" ++ [colon] ++ lit " Shield" ++ [colon] ++
          INCOGNITO_PROXY ++ [comma] ++ lit "DEST123" ++ [comma] ++ lit "TOKEN1" ++ [comma] ++
          lit "100000"))) =
      some ⟨INCOGNITO_PROXY, lit "DEST123", lit "TOKEN1", lit "100000"⟩ :=
  processShield_roundtrip INCOGNITO_PROXY (lit "Program log") (lit " Shield")
    ⟨INCOGNITO_PROXY, lit "DEST123", lit "TOKEN1", lit "100000"⟩ _ rfl
    (by decide) (by decide) (by decide) (by decide) (by decide) (by decide) rfl (by decide)
    ⟨lit "Program log: Instruction: Shield", rfl, by decide⟩ rfl

/-- C5: in a batch that passes validation and whose line 6 has a segment of
index 2 (at least 3 `:`-segments) that splits into at least 4 `,`-fields, a
first field different from the trusted proxy makes `processShield` reject the
batch with the invalid-proxy reason, after reading that field only, and no
ShieldEvent is produced; and in every batch whatsoever, a produced ShieldEvent
has the trusted proxy as its proxy. Scenario: the line
`"Program log: Shield:INC:P,DEST123,TOKEN1,100000"` with trusted proxy `"Q"`
produces no event. -/
theorem processShield_untrusted_proxy_rejected (trustedProxy : GoString) (logs : LogResult) :
    (∀ tag line payload f0,
      logs.Err = none → 7 ≤ logs.Logs.length →
      logs.Logs[1]? = some tag → stringsContains tag SHIELD = true →
      logs.Logs[6]? = some line → (stringsSplit line colon)[2]? = some payload →
      4 ≤ (stringsSplit payload comma).length →
      (stringsSplit payload comma)[0]? = some f0 → f0 ≠ trustedProxy →
      processShield trustedProxy logs =
          ⟨[.line 1, .line 6, .split colon, .segment 2, .split comma, .field 0], .ok (.invalidProxy f0)⟩ ∧
        producedEvent (processShield trustedProxy logs) = none) ∧
    (∀ ev, producedEvent (processShield trustedProxy logs) = some ev →
      ev.incognitoProxy = trustedProxy) ∧
    producedEvent (processShield (lit "Q")
      (exampleBatch (lit "Program log: Shield:INC:P,DEST123,TOKEN1,100000"))) = none := by
  refine ⟨?_, ?_, by decide⟩
  · intro tag line payload f0 herr hlen h1 htag h6 h2 h4 hf0 hne
    obtain ⟨g0, f1, f2, f3, rest, hf⟩ := exists_four_fields (stringsSplit payload comma) h4
    have hg : g0 = f0 := by
      rw [hf] at hf0
      simpa using hf0
    subst hg
    rw [processShield_valid _ _ _ _ herr hlen h1 htag h6,
      decodeShieldInfo_fields _ _ _ _ _ _ _ _ _ h2 hf]
    simp [hne, producedEvent]
  · intro ev hev
    have hres : (processShield trustedProxy logs).result = .ok (.shield ev) := by
      unfold producedEvent at hev
      split at hev
      · next e he =>
        rw [he]
        simp only [Option.some.injEq] at hev
        rw [hev]
      · simp at hev
    obtain ⟨_, _, _, _, _, _, _, _, _, _, _, hp⟩ := processShield_accept_inv _ _ _ hres
    exact hp

/-- C5, at a well-formed line for proxy `"P"` with trusted proxy `"Q"`: the
batch is rejected as invalid proxy `"P"` and produces no event. -/
theorem processShield_untrusted_proxy_rejected_witness :
    processShield (lit "Q") (exampleBatch (lit "Program log: Shield:P,DEST123,TOKEN1,100000")) =
        ⟨[.line 1, .line 6, .split colon, .segment 2, .split comma, .field 0], .ok (.invalidProxy (lit "P"))⟩ ∧
      producedEvent (processShield (lit "Q")
        (exampleBatch (lit "Program log: Shield:P,DEST123,TOKEN1,100000"))) = none :=
  (processShield_untrusted_proxy_rejected (lit "Q")
    (exampleBatch (lit "Program log: Shield:P,DEST123,TOKEN1,100000"))).1
    (lit "Program log: Instruction: Shield") (lit "Program log: Shield:P,DEST123,TOKEN1,100000")
    (lit "P,DEST123,TOKEN1,100000") (lit "P")
    rfl (by decide) rfl (by decide) rfl (by decide) (by decide) (by decide) (by decide)

/-- C6: in a batch that passes validation and whose line 6 has a segment of
index 2 (at least 3 `:`-segments), a payload segment that splits on `,` into
fewer than 4 fields makes `processShield` reject with the invalid-shield-info
(malformed payload) reason; no field is read (the run reads lines 1 and 6,
splits, reads segment 2, splits, and stops) and no ShieldEvent is produced. -/
theorem processShield_short_payload_rejected (trustedProxy : GoString) (logs : LogResult)
    (tag line payload : GoString)
    (herr : logs.Err = none) (hlen : 7 ≤ logs.Logs.length)
    (h1 : logs.Logs[1]? = some tag) (htag : stringsContains tag SHIELD = true)
    (h6 : logs.Logs[6]? = some line) (h2 : (stringsSplit line colon)[2]? = some payload)
    (h4 : (stringsSplit payload comma).length < 4) :
    processShield trustedProxy logs =
        ⟨[.line 1, .line 6, .split colon, .segment 2, .split comma], .ok (.invalidShieldInfo (stringsSplit payload comma))⟩ ∧
      producedEvent (processShield trustedProxy logs) = none := by
  rw [processShield_valid _ _ _ _ herr hlen h1 htag h6,
    decodeShieldInfo_short_payload _ _ _ _ h2 h4]
  exact ⟨rfl, rfl⟩

/-- C6, at a line 6 with only 2 comma-separated fields after the second
`:`. -/
theorem processShield_short_payload_rejected_witness :
    processShield (lit "P") (exampleBatch (lit "Program log: Shield:P,DEST123")) =
        ⟨[.line 1, .line 6, .split colon, .segment 2, .split comma], .ok (.invalidShieldInfo [lit "P", lit "DEST123"])⟩ ∧
      producedEvent (processShield (lit "P") (exampleBatch (lit "Program log: Shield:P,DEST123")))
        = none :=
  processShield_short_payload_rejected (lit "P") (exampleBatch (lit "Program log: Shield:P,DEST123"))
    (lit "Program log: Instruction: Shield") (lit "Program log: Shield:P,DEST123")
    (lit "P,DEST123") rfl (by decide) rfl (by decide) rfl (by decide) (by decide)

/-- C7: `processShield` never indexes out of bounds. For every trusted proxy
and every batch (any error flag, any number of lines, any line contents) the
run ends normally, in a rejection or an accepted event, never in a panic, and
every index access it performs (`shieldLogs[1]`, `shieldLogs[6]`, segment 2 of
the `:`-split, fields 0 to 3 of the `,`-split) is within bounds. -/
theorem processShield_never_panics (trustedProxy : GoString) (logs : LogResult) :
    (∃ o, (processShield trustedProxy logs).result = .ok o) ∧
      ∀ a ∈ (processShield trustedProxy logs).ops, a.inBounds logs = true := by
  have hSp : ∀ sep, Op.inBounds logs (.split sep) = true := fun _ => rfl
  cases herr : logs.Err with
  | some err => rw [processShield_failed _ _ _ herr]; exact ⟨⟨_, rfl⟩, by simp⟩
  | none =>
    by_cases hlen : logs.Logs.length < 7
    · rw [processShield_short _ _ herr hlen]; exact ⟨⟨_, rfl⟩, by simp⟩
    · obtain ⟨tag, h1⟩ := exists_line logs.Logs 1 (by omega)
      obtain ⟨line, h6⟩ := exists_line logs.Logs 6 (by omega)
      have hL1 : Op.inBounds logs (.line 1) = true := by
        simp only [Op.inBounds, decide_eq_true_eq]; omega
      have hL6 : Op.inBounds logs (.line 6) = true := by
        simp only [Op.inBounds, decide_eq_true_eq]; omega
      have hd6 : logs.Logs.getD 6 [] = line := by
        simp [List.getD_eq_getElem?_getD, h6]
      cases htag : stringsContains tag SHIELD with
      | false =>
        rw [processShield_no_tag _ _ _ herr (by omega) h1 htag]
        exact ⟨⟨_, rfl⟩, by simp [hL1]⟩
      | true =>
        rw [processShield_valid _ _ _ _ herr (by omega) h1 htag h6]
        by_cases h3 : (stringsSplit line colon).length < 3
        · rw [decodeShieldInfo_short_line _ _ _ h3]
          exact ⟨⟨_, rfl⟩, by simp [hL1, hL6, hSp]⟩
        · obtain ⟨payload, h2⟩ := exists_getElem?_two (stringsSplit line colon) (by omega)
          have hS2 : Op.inBounds logs (.segment 2) = true := by
            simp only [Op.inBounds, decide_eq_true_eq, hd6]; omega
          have hd2 : (stringsSplit line colon).getD 2 [] = payload := by
            simp [List.getD_eq_getElem?_getD, h2]
          by_cases h4 : (stringsSplit payload comma).length < 4
          · rw [decodeShieldInfo_short_payload _ _ _ _ h2 h4]
            exact ⟨⟨_, rfl⟩, by simp [hL1, hL6, hS2, hSp]⟩
          · have hF : ∀ i, i < 4 → Op.inBounds logs (.field i) = true := by
              intro i hi
              simp only [Op.inBounds, decide_eq_true_eq, hd6, hd2]; omega
            obtain ⟨f0, f1, f2, f3, rest, hf⟩ :=
              exists_four_fields (stringsSplit payload comma) (by omega)
            rw [decodeShieldInfo_fields _ _ _ _ _ _ _ _ _ h2 hf]
            by_cases hp : f0 = trustedProxy
            · refine ⟨⟨.shield ⟨f0, f1, f2, f3⟩, by simp [hp]⟩, ?_⟩
              simp [hp, hL1, hL6, hS2, hSp, hF 0 (by omega), hF 1 (by omega),
                hF 2 (by omega), hF 3 (by omega)]
            · refine ⟨⟨.invalidProxy f0, by simp [hp]⟩, ?_⟩
              simp [hp, hL1, hL6, hS2, hSp, hF 0 (by omega)]

/-- C8, on the code: the receive loop keeps no record of the signatures it has
seen. For every batch, a second receipt is processed exactly as the first; so
when the same valid shield batch (same signature) is received twice, its
ShieldEvent is produced at both receipts. -/
theorem receiveLoop_same_batch_twice :
    (∀ trustedProxy got, receiveLoop trustedProxy [got, got] =
      [processShield trustedProxy got, processShield trustedProxy got]) ∧
    (receiveLoop (lit "P")
        [exampleBatch (lit "Program log: Shield:P,DEST123,TOKEN1,100000"),
          exampleBatch (lit "Program log: Shield:P,DEST123,TOKEN1,100000")]).map producedEvent =
      [some ⟨lit "P", lit "DEST123", lit "TOKEN1", lit "100000"⟩,
        some ⟨lit "P", lit "DEST123", lit "TOKEN1", lit "100000"⟩] := by
  refine ⟨fun _ _ => rfl, ?_⟩
  decide

/-- C9, as stated, refuted: with trusted proxy `"P"`, the line
`"Program log: Shield:P,DEST123,TOKEN1,abc"` is accepted and the amount of the
produced event is `"abc"`, which does not parse as a non-negative integer. -/
theorem processShield_accepts_non_numeric_amount :
    producedEvent (processShield (lit "P")
        (exampleBatch (lit "Program log: Shield:P,DEST123,TOKEN1,abc"))) =
      some ⟨lit "P", lit "DEST123", lit "TOKEN1", lit "abc"⟩ ∧
    parsesAsNonNegInt (lit "abc") = false := by
  decide

/-- C9, amended: for every batch that `processShield` accepts, the amount of
the produced ShieldEvent is, verbatim, the fourth `,`-field (index 3) of the
payload, the segment of index 2 of line 6; it is not checked to be a number. -/
theorem processShield_amount_verbatim (trustedProxy : GoString) (logs : LogResult)
    (ev : ShieldEvent) (h : producedEvent (processShield trustedProxy logs) = some ev) :
    ∃ line payload, logs.Logs[6]? = some line ∧
      (stringsSplit line colon)[2]? = some payload ∧
      (stringsSplit payload comma)[3]? = some ev.amount := by
  have hres : (processShield trustedProxy logs).result = .ok (.shield ev) := by
    unfold producedEvent at h
    split at h
    · next e he =>
      rw [he]
      simp only [Option.some.injEq] at h
      rw [h]
    · simp at h
  obtain ⟨_, _, tag, line, payload, rest, _, _, h6, h2, hf, _⟩ :=
    processShield_accept_inv _ _ _ hres
  exact ⟨line, payload, h6, h2, by rw [hf]; simp⟩

/-- C9, amended, at the accepted line
`"Program log: Shield:P,DEST123,TOKEN1,abc"`: the amount `"abc"` is the field
of index 3 of the payload `"P,DEST123,TOKEN1,abc"`. -/
theorem processShield_amount_verbatim_witness :
    ∃ line payload,
      (exampleBatch (lit "Program log: Shield:P,DEST123,TOKEN1,abc")).Logs[6]? = some line ∧
      (stringsSplit line colon)[2]? = some payload ∧
      (stringsSplit payload comma)[3]? = some (lit "abc") :=
  processShield_amount_verbatim (lit "P")
    (exampleBatch (lit "Program log: Shield:P,DEST123,TOKEN1,abc"))
    ⟨lit "P", lit "DEST123", lit "TOKEN1", lit "abc"⟩ (by decide)

/-! ### Signer lookup -/

theorem signerLookup_some (publicKey : PrivateKey → PublicKey) (signers : List PrivateKey)
    (key : PublicKey) (handle : PrivateKey)
    (h : signerLookup publicKey signers key = some handle) :
    publicKey handle = key ∧
      ∃ pre post, signers = pre ++ handle :: post ∧ ∀ c ∈ pre, publicKey c ≠ key := by
  induction signers with
  | nil => simp [signerLookup] at h
  | cons candidate rest ih =>
    by_cases hc : publicKey candidate = key
    · simp only [signerLookup, hc, if_true, Option.some.injEq] at h
      subst h
      exact ⟨hc, [], rest, rfl, by simp⟩
    · simp only [signerLookup, hc, if_false] at h
      obtain ⟨hk, pre, post, hs, hpre⟩ := ih h
      refine ⟨hk, candidate :: pre, post, by rw [hs]; rfl, ?_⟩
      intro c hcm
      rcases List.mem_cons.mp hcm with rfl | hm
      · exact hc
      · exact hpre c hm

theorem signerLookup_none (publicKey : PrivateKey → PublicKey) (signers : List PrivateKey)
    (key : PublicKey) :
    signerLookup publicKey signers key = none ↔ ∀ c ∈ signers, publicKey c ≠ key := by
  induction signers with
  | nil => simp [signerLookup]
  | cons candidate rest ih =>
    by_cases hc : publicKey candidate = key
    · simp [signerLookup, hc]
    · simp [signerLookup, hc, ih]

/-- C10: the signing contract of `SignAndSendTx`. For every signer list and
every requested public key, the lookup passed to `tx.Sign` returns a handle
whose public key equals the requested key, the first such in list order, when
the list contains one, and returns `nil` exactly when no handle of the list
matches. Whenever `tx.Sign` fails, `SignAndSendTx` returns the zero signature
with that error and the transaction is never sent; in particular this is so
when some required signer has no match, for a `tx.Sign` that fails on a
required key whose lookup is `nil`. -/
theorem SignAndSendTx_signing_contract {Transaction : Type} (lib : SolanaLib Transaction)
    (tx : Transaction) (signers : List PrivateKey) :
    (∀ key handle, signerLookup lib.publicKey signers key = some handle →
      lib.publicKey handle = key ∧
        ∃ pre post, signers = pre ++ handle :: post ∧ ∀ c ∈ pre, lib.publicKey c ≠ key) ∧
    (∀ key, (∃ c ∈ signers, lib.publicKey c = key) →
      ∃ handle, signerLookup lib.publicKey signers key = some handle) ∧
    (∀ key, signerLookup lib.publicKey signers key = none ↔
      ∀ c ∈ signers, lib.publicKey c ≠ key) ∧
    (∀ err, lib.sign tx (signerLookup lib.publicKey signers) = .error err →
      SignAndSendTx lib tx signers = ⟨Signature.zero, some err, []⟩) ∧
    (∀ required : List PublicKey,
      (∀ getter, (∃ key ∈ required, getter key = none) → ∃ err, lib.sign tx getter = .error err) →
      (∃ key ∈ required, ∀ c ∈ signers, lib.publicKey c ≠ key) →
      ∃ err, SignAndSendTx lib tx signers = ⟨Signature.zero, some err, []⟩) := by
  have hfail : ∀ err, lib.sign tx (signerLookup lib.publicKey signers) = .error err →
      SignAndSendTx lib tx signers = ⟨Signature.zero, some err, []⟩ := by
    intro err h
    simp [SignAndSendTx, h]
  refine ⟨fun key handle h => signerLookup_some _ _ _ _ h, ?_,
    fun key => signerLookup_none _ _ _, hfail, ?_⟩
  · intro key hex
    cases hl : signerLookup lib.publicKey signers key with
    | some handle => exact ⟨handle, rfl⟩
    | none =>
      obtain ⟨c, hc, hk⟩ := hex
      exact absurd hk ((signerLookup_none _ _ _).mp hl c hc)
  · intro required hsign hmiss
    obtain ⟨key, hkey, hno⟩ := hmiss
    obtain ⟨err, herr⟩ := hsign (signerLookup lib.publicKey signers)
      ⟨key, hkey, (signerLookup_none _ _ _).mpr hno⟩
    exact ⟨err, hfail err herr⟩

/-- C10, at the example library: with signers `[k1]`, the key of `k1` is found
and the key of `k2` is not; a transaction that requires both keys is not
signed, and `SignAndSendTx` returns the zero signature with the signing error
without sending anything. -/
theorem SignAndSendTx_signing_contract_witness :
    signerLookup exampleLib.publicKey [⟨[1, 2]⟩] ⟨[2, 1]⟩ = some ⟨[1, 2]⟩ ∧
    signerLookup exampleLib.publicKey [⟨[1, 2]⟩] ⟨[4, 3]⟩ = none ∧
    SignAndSendTx exampleLib ⟨[⟨[2, 1]⟩, ⟨[4, 3]⟩], []⟩ [⟨[1, 2]⟩] =
      ⟨Signature.zero, some ⟨lit "signer key not found"⟩, []⟩ :=
  ⟨by decide,
    ((SignAndSendTx_signing_contract exampleLib ⟨[⟨[2, 1]⟩, ⟨[4, 3]⟩], []⟩ [⟨[1, 2]⟩]).2.2.1
      ⟨[4, 3]⟩).mpr (by decide),
    (SignAndSendTx_signing_contract exampleLib ⟨[⟨[2, 1]⟩, ⟨[4, 3]⟩], []⟩ [⟨[1, 2]⟩]).2.2.2.1
      ⟨lit "signer key not found"⟩ rfl⟩

end SolanaBridge
